import Mathlib

/-!
Verification development for the Hodgkin-Huxley simulator
(`lampe/simulators/hh.py`).

The NumPy/SciPy source is shallowly embedded over the real numbers:

* floating-point scalars become `ℝ` (exact real arithmetic);
* the per-step standard-normal draws of `np.random.randn` become an
  oracle stream `ξ : ℕ → ℝ` supplied as an explicit argument;
* a batched array computation is modelled element-wise (every operation
  of the source acts independently along the last axis or broadcasts,
  so one batch element carries all the content), with lists standing
  for the time axis;
* `np.mean` / `np.std` / `np.var` / `scipy.stats.skew` /
  `scipy.stats.kurtosis` return NaN on an empty slice; NaN being absent
  from `ℝ`, those reductions return `Option ℝ` with `none` for NaN;
* NumPy boolean-mask indexing `x[..., mask]` raises `IndexError` when
  the mask length differs from the indexed axis; `summarize` therefore
  returns `Option _`, `none` modelling the raised error.
-/

noncomputable section

open Real (exp)

/-- The 8 entries of the parameter vector `theta`, in source order
`g_Na, g_K, g_M, g_leak, tau_max, V_t, sigma, E_leak`. -/
structure Theta where
  g_Na : ℝ
  g_K : ℝ
  g_M : ℝ
  g_leak : ℝ
  tau_max : ℝ
  V_t : ℝ
  sigma : ℝ
  E_leak : ℝ

/-- The five physical constants consumed by `voltage_trace` and
`summarize` (the `constants` dict of the `HH` class). -/
structure Constants where
  duration : ℝ
  time_step : ℝ
  padding : ℝ
  initial_voltage : ℝ
  current : ℝ

/-- Per-step state of the integrator: voltage `V` and the four gating
variables `n, m, h, p`. -/
structure HHState where
  V : ℝ
  n : ℝ
  m : ℝ
  h : ℝ
  p : ℝ

/-- Membrane capacitance, `C = 1.  # uF/cm^2` in the source. -/
def C : ℝ := 1

/-- Sodium reversal potential, `E_Na = 53.` in the source. -/
def E_Na : ℝ := 53

/-- Potassium reversal potential, `E_K = -107.` in the source. -/
def E_K : ℝ := -107

/-- `efun = lambda x: np.where(np.abs(x) < 1e-4, 1 - x / 2, x / (exp(x) - 1))`.
`np.where` selects per element, so element-wise it is this conditional. -/
def efun (x : ℝ) : ℝ :=
  if |x| < 1e-4 then 1 - x / 2 else x / (exp x - 1)

/-- `alpha_n = lambda x: 0.032 * efun(-0.2 * (x - 15.)) / 0.2` -/
def alpha_n (x : ℝ) : ℝ := 0.032 * efun ((-0.2) * (x - 15)) / 0.2

/-- `beta_n = lambda x: 0.5 * exp(-(x - 10.) / 40.)` -/
def beta_n (x : ℝ) : ℝ := 0.5 * exp (-(x - 10) / 40)

/-- `tau_n = lambda x: 1 / (alpha_n(x) + beta_n(x))` -/
def tau_n (x : ℝ) : ℝ := 1 / (alpha_n x + beta_n x)

/-- `n_inf = lambda x: alpha_n(x) / (alpha_n(x) + beta_n(x))` -/
def n_inf (x : ℝ) : ℝ := alpha_n x / (alpha_n x + beta_n x)

/-- `alpha_m = lambda x: 0.32 * efun(-0.25 * (x - 13.)) / 0.25` -/
def alpha_m (x : ℝ) : ℝ := 0.32 * efun ((-0.25) * (x - 13)) / 0.25

/-- `beta_m = lambda x: 0.28 * efun(0.2 * (x - 40.)) / 0.2` -/
def beta_m (x : ℝ) : ℝ := 0.28 * efun (0.2 * (x - 40)) / 0.2

/-- `tau_m = lambda x: 1 / (alpha_m(x) + beta_m(x))` -/
def tau_m (x : ℝ) : ℝ := 1 / (alpha_m x + beta_m x)

/-- `m_inf = lambda x: alpha_m(x) / (alpha_m(x) + beta_m(x))` -/
def m_inf (x : ℝ) : ℝ := alpha_m x / (alpha_m x + beta_m x)

/-- `alpha_h = lambda x: 0.128 * exp(-(x - 17.) / 18)` -/
def alpha_h (x : ℝ) : ℝ := 0.128 * exp (-(x - 17) / 18)

/-- `beta_h = lambda x: 4. / (1. + exp(-0.2 * (x - 40.)))` -/
def beta_h (x : ℝ) : ℝ := 4 / (1 + exp ((-0.2) * (x - 40)))

/-- `tau_h = lambda x: 1 / (alpha_h(x) + beta_h(x))` -/
def tau_h (x : ℝ) : ℝ := 1 / (alpha_h x + beta_h x)

/-- `h_inf = lambda x: alpha_h(x) / (alpha_h(x) + beta_h(x))` -/
def h_inf (x : ℝ) : ℝ := alpha_h x / (alpha_h x + beta_h x)

/-- `tau_p = lambda x: tau_max / (3.3 * exp(0.05 * (x + 35.)) + exp(-0.05 * (x + 35.)))` -/
def tau_p (tau_max x : ℝ) : ℝ :=
  tau_max / (3.3 * exp (0.05 * (x + 35)) + exp ((-0.05) * (x + 35)))

/-- `p_inf = lambda x: 1. / (1. + exp(-0.1 * (x + 35.)))` -/
def p_inf (x : ℝ) : ℝ := 1 / (1 + exp ((-0.1) * (x + 35)))

/-- `tau_V = C / (g_Na * m ** 3 * h + g_K * n ** 4 + g_M * p + g_leak)`. -/
def tau_V (θ : Theta) (s : HHState) : ℝ :=
  C / (θ.g_Na * s.m ^ 3 * s.h + θ.g_K * s.n ^ 4 + θ.g_M * s.p + θ.g_leak)

/-- The steady-state voltage target of one iteration, with the stimulus
indicator `(pad <= t < T - pad)` and the noise term
`sigma * np.random.randn(...) / dt ** 0.5` (the draw is the oracle
value `ξ`). -/
def V_inf (θ : Theta) (c : Constants) (t ξ : ℝ) (s : HHState) : ℝ :=
  tau_V θ s * (
    E_Na * θ.g_Na * s.m ^ 3 * s.h
    + E_K * θ.g_K * s.n ^ 4
    + E_K * θ.g_M * s.p
    + θ.E_leak * θ.g_leak
    + c.current * (if c.padding ≤ t ∧ t < c.duration - c.padding then 1 else 0)
    + θ.sigma * ξ / Real.sqrt c.time_step) / C

/-- One iteration of the `for i, t in enumerate(timesteps)` loop body:
update `V` by the exponential rule, recompute `V_rel = V - V_t`, then
update `n, m, h` at `V_rel` and `p` at the absolute `V`. -/
def step (θ : Theta) (c : Constants) (t ξ : ℝ) (s : HHState) : HHState :=
  let V := V_inf θ c t ξ s + (s.V - V_inf θ c t ξ s) * exp (-c.time_step / tau_V θ s)
  let V_rel := V - θ.V_t
  { V := V
    n := n_inf V_rel + (s.n - n_inf V_rel) * exp (-c.time_step / tau_n V_rel)
    m := m_inf V_rel + (s.m - m_inf V_rel) * exp (-c.time_step / tau_m V_rel)
    h := h_inf V_rel + (s.h - h_inf V_rel) * exp (-c.time_step / tau_h V_rel)
    p := p_inf V + (s.p - p_inf V) * exp (-c.time_step / tau_p θ.tau_max V) }

/-- Initial state: `V = initial_voltage`, gating variables at their
steady-state values (`n_inf`, `m_inf`, `h_inf` at `V_rel`, `p_inf` at
the absolute `V`). -/
def initState (θ : Theta) (c : Constants) : HHState :=
  let V := c.initial_voltage
  let V_rel := V - θ.V_t
  { V := V, n := n_inf V_rel, m := m_inf V_rel, h := h_inf V_rel, p := p_inf V }

/-- State after `k` iterations of the loop; iteration `k` runs at time
`t = k * dt` with noise draw `ξ k`. -/
def run (θ : Theta) (c : Constants) (ξ : ℕ → ℝ) : ℕ → HHState
  | 0 => initState θ c
  | k + 1 => step θ c ((k : ℝ) * c.time_step) (ξ k) (run θ c ξ k)

/-- Length of `np.arange(0, T, dt)` in exact arithmetic:
`max(0, ceil(T / dt))` points. -/
def numSteps (c : Constants) : ℕ := Nat.ceil (c.duration / c.time_step)

/-- The time grid `np.arange(0, T, dt)`: points `i * dt` for
`i < numSteps`. -/
def tgrid (c : Constants) : List ℝ :=
  (List.range (numSteps c)).map fun (i : ℕ) => (i : ℝ) * c.time_step

/-- `voltage_trace`: the list of voltages appended at the end of each
loop iteration (the voltage recorded at grid index `i` is the one after
`i + 1` state updates). -/
def voltage_trace (θ : Theta) (c : Constants) (ξ : ℕ → ℝ) : List ℝ :=
  (List.range (numSteps c)).map fun i => (run θ c ξ (i + 1)).V

/-- `np.diff` along the last axis: successive differences. -/
def npDiff : List ℝ → List ℝ
  | a :: b :: l => (b - a) :: npDiff (b :: l)
  | _ => []

/-- `np.sum(l < 0)`: how many entries are strictly negative. -/
def countNeg : List ℝ → ℕ
  | [] => 0
  | a :: l => (if a < 0 then 1 else 0) + countNeg l

/-- The spike counter of `summarize`:
`spikes = np.maximum(x, -10)`, `spikes = np.diff(np.sign(np.diff(spikes)))`,
`spikes = np.sum(spikes < 0, axis=-1)`. -/
def spikeCount (x : List ℝ) : ℕ :=
  countNeg (npDiff ((npDiff (x.map fun v => max v (-10))).map Real.sign))

/-- `np.mean` along the last axis; `none` models the NaN produced on an
empty slice. -/
def npMean (l : List ℝ) : Option ℝ :=
  if l = [] then none else some (l.sum / l.length)

/-- `np.var` (population variance, `ddof=0`); `none` models NaN on an
empty slice. -/
def npVar (l : List ℝ) : Option ℝ :=
  if l = [] then none
  else some ((l.map fun v => (v - l.sum / l.length) ^ 2).sum / l.length)

/-- `np.std`: square root of `np.var`; `none` models NaN on an empty
slice. -/
def npStd (l : List ℝ) : Option ℝ :=
  (npVar l).map Real.sqrt

/-- `scipy.stats.skew` with its defaults (biased):
`m3 / m2 ** 1.5` with central moments `mk`; `none` models NaN on an
empty slice. -/
def spSkew (l : List ℝ) : Option ℝ :=
  if l = [] then none
  else
    some (((l.map fun v => (v - l.sum / l.length) ^ 3).sum / l.length) /
      ((l.map fun v => (v - l.sum / l.length) ^ 2).sum / l.length) ^ ((3 : ℝ) / 2))

/-- `scipy.stats.kurtosis` with its defaults (Fisher, biased):
`m4 / m2 ** 2 - 3`; `none` models NaN on an empty slice. -/
def spKurtosis (l : List ℝ) : Option ℝ :=
  if l = [] then none
  else
    some (((l.map fun v => (v - l.sum / l.length) ^ 4).sum / l.length) /
      ((l.map fun v => (v - l.sum / l.length) ^ 2).sum / l.length) ^ 2 - 3)

/-- NumPy boolean-mask indexing `x[..., m]` for a mask of the same
length: keep the entries whose mask bit is set.  (`summarize` guards
the length; on a mismatch NumPy raises instead.) -/
def maskSelect : List ℝ → List Bool → List ℝ
  | a :: x, b :: m => if b then a :: maskSelect x m else maskSelect x m
  | _, _ => []

/-- The boolean mask `(lo <= t) * (t < hi)` over the grid
`t = np.arange(0, T, dt)`. -/
def timeMask (c : Constants) (lo hi : ℝ) : List Bool :=
  (tgrid c).map fun t => if lo ≤ t ∧ t < hi then true else false

/-- `summarize`: spike count, resting-window mean/std, stimulus-window
mean/var/skew/kurtosis, stacked in that order along a new last axis.
The boolean masks have length `numSteps c`; if the trace length
differs, `x[..., mask]` raises `IndexError` in NumPy, modelled here by
`none`. -/
def summarize (x : List ℝ) (c : Constants) : Option (List (Option ℝ)) :=
  if x.length = numSteps c then
    some [some ((spikeCount x : ℕ) : ℝ),
      npMean (maskSelect x (timeMask c (c.padding / 2) c.padding)),
      npStd (maskSelect x (timeMask c (c.padding / 2) c.padding)),
      npMean (maskSelect x (timeMask c c.padding (c.duration - c.padding))),
      npVar (maskSelect x (timeMask c c.padding (c.duration - c.padding))),
      spSkew (maskSelect x (timeMask c c.padding (c.duration - c.padding))),
      spKurtosis (maskSelect x (timeMask c c.padding (c.duration - c.padding)))]
  else none

/-- Batched `summarize`: the source applies every reduction along
`axis=-1`, so a leading batch axis is a plain map. -/
def summarizeBatch (xs : List (List ℝ)) (c : Constants) : List (Option (List (Option ℝ))) :=
  xs.map fun x => summarize x c

/-- The window selection described by the spec: the trace samples whose
grid time `i * dt` lies in the half-open window `[lo, hi)`. -/
def specWindow (x : List ℝ) (lo hi dt : ℝ) : List ℝ :=
  (List.range x.length).filterMap fun (i : ℕ) =>
    if lo ≤ (i : ℝ) * dt ∧ (i : ℝ) * dt < hi then some (x.getD i 0) else none

/-- The default constants of `HH.__init__`, as a `Constants` bundle. -/
def defaultConstants : Constants :=
  { duration := 80, time_step := 0.02, padding := 10, initial_voltage := -70,
    current := 5e-4 / (Real.pi * (7e-3) ^ 2) }

/-- The `default` dict of `HH.__init__`, in insertion order. -/
def defaultItems : List (String × ℝ) :=
  [("duration", 80), ("time_step", 0.02), ("padding", 10),
   ("initial_voltage", -70), ("current", 5e-4 / (Real.pi * (7e-3) ^ 2))]

/-- `self.constants = {k: kwargs.get(k, v) for k, v in default.items()}`:
keyword arguments are an association list (Python keywords cannot
repeat), and each of the five default keys takes the keyword value when
present, the default otherwise. -/
def mkConstants (kwargs : List (String × ℝ)) : List (String × ℝ) :=
  defaultItems.map fun kv => (kv.1, (kwargs.lookup kv.1).getD kv.2)

/-- The `HH` simulator object: its `constants` dict and its `summary`
toggle. -/
structure HHSim where
  constants : List (String × ℝ)
  summary : Bool

/-- `HH.__init__(self, summary=True, **kwargs)`: the caller may omit
`summary` (`none`), in which case the Python default `True` applies. -/
def HH_init (kwargs : List (String × ℝ)) (s : Option Bool) : HHSim :=
  { constants := mkConstants kwargs, summary := s.getD true }

/-- A concrete parameter vector (the midpoint of the documented bounds,
with `sigma = 0`), used to instantiate theorems. -/
def theta0 : Theta :=
  { g_Na := 40.25, g_K := 7.5, g_M := 0.3, g_leak := 0.3, tau_max := 1525,
    V_t := -65, sigma := 0, E_leak := -67.5 }

/-- Spec-side comparator (following the words of the spec, not the
source): the number of strict local maxima `x[i-1] < x[i] > x[i+1]` of
a sequence, what the spike detector is said to count on the clipped
trace. -/
def localMaxCount : List ℝ → ℕ
  | a :: b :: c :: l => (if a < b ∧ c < b then 1 else 0) + localMaxCount (b :: c :: l)
  | _ => 0

/-- Small concrete constants (3 grid points, windows inside the grid)
used to instantiate theorems. -/
def cSmall : Constants :=
  { duration := 3, time_step := 1, padding := 1, initial_voltage := -70, current := 0 }

/-- Degenerate concrete constants: `padding = 100` makes both the
resting window `[50, 100)` and the stimulus window `[100, -97)` miss
every grid point of `0, 1, 2`. -/
def cDeg : Constants :=
  { duration := 3, time_step := 1, padding := 100, initial_voltage := -70, current := 0 }

/-- **C1.** Every iteration of the time-step loop advances the state by
the exponential-update rule: `V` moves to
`V_inf + (V - V_inf) * exp(-dt / tau_V)`, `V_rel` is recomputed as
`V - V_t`, the gating variables `n, m, h` are pulled toward their
`_inf` values at the new `V_rel` with rates `tau_n, tau_m, tau_h` at
`V_rel`, and `p` is updated by the same rule but with `p_inf` and
`tau_p` evaluated at the new absolute voltage `V`; the `k`-th loop
iteration applies exactly this update at time `k * dt`. -/
theorem step_exponential_update (θ : Theta) (c : Constants) (t w : ℝ) (s : HHState)
    (ξ : ℕ → ℝ) :
    (step θ c t w s).V
      = V_inf θ c t w s + (s.V - V_inf θ c t w s) * exp (-c.time_step / tau_V θ s) ∧
    (step θ c t w s).n
      = n_inf ((step θ c t w s).V - θ.V_t)
        + (s.n - n_inf ((step θ c t w s).V - θ.V_t))
          * exp (-c.time_step / tau_n ((step θ c t w s).V - θ.V_t)) ∧
    (step θ c t w s).m
      = m_inf ((step θ c t w s).V - θ.V_t)
        + (s.m - m_inf ((step θ c t w s).V - θ.V_t))
          * exp (-c.time_step / tau_m ((step θ c t w s).V - θ.V_t)) ∧
    (step θ c t w s).h
      = h_inf ((step θ c t w s).V - θ.V_t)
        + (s.h - h_inf ((step θ c t w s).V - θ.V_t))
          * exp (-c.time_step / tau_h ((step θ c t w s).V - θ.V_t)) ∧
    (step θ c t w s).p
      = p_inf (step θ c t w s).V
        + (s.p - p_inf (step θ c t w s).V)
          * exp (-c.time_step / tau_p θ.tau_max (step θ c t w s).V) ∧
    (∀ k : ℕ, run θ c ξ (k + 1) = step θ c ((k : ℝ) * c.time_step) (ξ k) (run θ c ξ k)) :=
  ⟨rfl, rfl, rfl, rfl, rfl, fun _ => rfl⟩

/-- **C2.** For positive `duration` and `time_step`, the trace length is
the number of points of the half-open grid `0, dt, 2dt, ... < duration`,
namely `ceil(duration / dt)`; for `duration = 80`, `dt = 0.02` that is
exactly `4000`. -/
theorem voltage_trace_length (θ : Theta) (c : Constants) (ξ : ℕ → ℝ)
    (hT : 0 < c.duration) (hdt : 0 < c.time_step) :
    (voltage_trace θ c ξ).length = Nat.ceil (c.duration / c.time_step) ∧
    (∀ i : ℕ, ((i : ℝ) * c.time_step < c.duration ↔ i < (voltage_trace θ c ξ).length)) ∧
    (c.duration = 80 → c.time_step = 0.02 → (voltage_trace θ c ξ).length = 4000) := by
  have hlen : (voltage_trace θ c ξ).length = numSteps c := by
    simp [voltage_trace]
  refine ⟨hlen, ?_, ?_⟩
  · intro i
    rw [hlen]
    unfold numSteps
    rw [Nat.lt_ceil, lt_div_iff₀ hdt]
  · intro h80 h002
    rw [hlen]
    unfold numSteps
    rw [h80, h002]
    have h : (80 : ℝ) / 0.02 = ((4000 : ℕ) : ℝ) := by norm_num
    rw [h, Nat.ceil_natCast]

/-- Witness for C2 at the default constants. -/
theorem voltage_trace_length_witness :
    (voltage_trace theta0 defaultConstants (fun _ => 0)).length = 4000 :=
  (voltage_trace_length theta0 defaultConstants (fun _ => 0)
    (by norm_num [defaultConstants]) (by norm_num [defaultConstants])).2.2 rfl rfl

lemma V_inf_noise_free (θ : Theta) (c : Constants) (t w1 w2 : ℝ) (s : HHState)
    (h : θ.sigma = 0) : V_inf θ c t w1 s = V_inf θ c t w2 s := by
  simp [V_inf, h]

lemma step_noise_free (θ : Theta) (c : Constants) (t w1 w2 : ℝ) (s : HHState)
    (h : θ.sigma = 0) : step θ c t w1 s = step θ c t w2 s := by
  simp only [step]
  rw [V_inf_noise_free θ c t w1 w2 s h]

lemma run_noise_free (θ : Theta) (c : Constants) (ξ1 ξ2 : ℕ → ℝ) (h : θ.sigma = 0) :
    ∀ k : ℕ, run θ c ξ1 k = run θ c ξ2 k := by
  intro k
  induction k with
  | zero => rfl
  | succ k ih =>
    simp only [run]
    rw [ih]
    exact step_noise_free θ c _ (ξ1 k) (ξ2 k) _ h

/-- **C7.** With `sigma = 0` the noise term `sigma * randn / sqrt(dt)`
vanishes, so the trace does not depend on the Gaussian draws: any two
noise streams give identical traces. -/
theorem voltage_trace_noise_independent (θ : Theta) (c : Constants) (ξ1 ξ2 : ℕ → ℝ)
    (h : θ.sigma = 0) : voltage_trace θ c ξ1 = voltage_trace θ c ξ2 := by
  unfold voltage_trace
  simp only [run_noise_free θ c ξ1 ξ2 h]

/-- Witness for C7: two distinct concrete noise streams, identical
traces. -/
theorem voltage_trace_noise_independent_witness :
    voltage_trace theta0 defaultConstants (fun _ => 1)
      = voltage_trace theta0 defaultConstants (fun _ => 2) :=
  voltage_trace_noise_independent theta0 defaultConstants _ _ rfl

/-- **C4.** `efun` is total and singularity-free: it equals the Taylor
branch `1 - x / 2` whenever `|x| < 1e-4`, and on the complementary
branch it equals `x / (exp x - 1)` with `exp x ≠ 1` there (no division
by zero), so `efun 0 = 1`; over a batch it acts element-wise. -/
theorem efun_total_and_safe :
    (∀ x : ℝ, |x| < 1e-4 → efun x = 1 - x / 2) ∧
    (∀ x : ℝ, 1e-4 ≤ |x| → efun x = x / (Real.exp x - 1) ∧ Real.exp x ≠ 1) ∧
    efun 0 = 1 ∧
    (∀ (xs : List ℝ) (i : ℕ), i < xs.length →
      (xs.map efun).getD i 0 = efun (xs.getD i 0)) := by
  refine ⟨?_, ?_, ?_, ?_⟩
  · intro x hx
    simp [efun, hx]
  · intro x hx
    have hx0 : x ≠ 0 := by
      intro h0
      rw [h0] at hx
      norm_num at hx
    refine ⟨by simp [efun, not_lt.mpr hx], ?_⟩
    intro h1
    exact hx0 ((Real.exp_eq_one_iff x).mp h1)
  · simp [efun]
    norm_num
  · intro xs i hi
    induction xs generalizing i with
    | nil => simp at hi
    | cons a l ih =>
      cases i with
      | zero => simp
      | succ j =>
        simp only [List.map_cons, List.getD_cons_succ]
        exact ih j (by simpa using hi)

/-- Witness for C4 at `x = 0` (Taylor branch) and `x = 1` (rational
branch). -/
theorem efun_total_and_safe_witness :
    efun 0 = 1 - 0 / 2 ∧
    (efun 1 = 1 / (Real.exp 1 - 1) ∧ Real.exp 1 ≠ 1) ∧
    ([(0 : ℝ)].map efun).getD 0 0 = efun (([(0 : ℝ)]).getD 0 0) :=
  ⟨efun_total_and_safe.1 0 (by norm_num),
   efun_total_and_safe.2.1 1 (by norm_num),
   efun_total_and_safe.2.2.2 [0] 0 (by norm_num)⟩

/-- **C10.** The constructed constants dict has exactly the five keys
`duration, time_step, padding, initial_voltage, current`, in that
order, each taken from the keyword arguments when present and from the
documented defaults otherwise; any other keyword is silently dropped,
and an omitted `summary` argument defaults to `true`. -/
theorem HH_init_constants (kwargs : List (String × ℝ)) :
    (mkConstants kwargs).map Prod.fst
      = ["duration", "time_step", "padding", "initial_voltage", "current"] ∧
    mkConstants kwargs =
      [("duration", (kwargs.lookup "duration").getD 80),
       ("time_step", (kwargs.lookup "time_step").getD 0.02),
       ("padding", (kwargs.lookup "padding").getD 10),
       ("initial_voltage", (kwargs.lookup "initial_voltage").getD (-70)),
       ("current", (kwargs.lookup "current").getD (5e-4 / (Real.pi * (7e-3) ^ 2)))] ∧
    (∀ k : String,
      k ∉ (["duration", "time_step", "padding", "initial_voltage", "current"] : List String) →
      (mkConstants kwargs).lookup k = none) ∧
    (HH_init kwargs none).summary = true := by
  refine ⟨?_, ?_, ?_, rfl⟩
  · simp [mkConstants, defaultItems]
  · simp [mkConstants, defaultItems]
  · intro k hk
    simp only [List.mem_cons, List.not_mem_nil, or_false, not_or] at hk
    obtain ⟨h1, h2, h3, h4, h5⟩ := hk
    have b1 : (k == "duration") = false := beq_eq_false_iff_ne.mpr h1
    have b2 : (k == "time_step") = false := beq_eq_false_iff_ne.mpr h2
    have b3 : (k == "padding") = false := beq_eq_false_iff_ne.mpr h3
    have b4 : (k == "initial_voltage") = false := beq_eq_false_iff_ne.mpr h4
    have b5 : (k == "current") = false := beq_eq_false_iff_ne.mpr h5
    simp [mkConstants, defaultItems, List.lookup, b1, b2, b3, b4, b5]

/-- Witness for C10: a misspelled keyword is ignored and absent from
the constants. -/
theorem HH_init_constants_witness :
    (mkConstants [("durration", 100)]).lookup "durration" = none :=
  (HH_init_constants [("durration", 100)]).2.2.1 "durration" (by simp)

lemma efun_pos (x : ℝ) : 0 < efun x := by
  unfold efun
  by_cases hx : |x| < 1e-4
  · rw [if_pos hx]
    have := (abs_lt.mp hx).2
    linarith
  · rw [if_neg hx]
    push_neg at hx
    have hx0 : x ≠ 0 := by
      intro h0
      rw [h0] at hx
      norm_num at hx
    rcases lt_or_gt_of_ne hx0 with hneg | hpos
    · apply div_pos_iff.mpr
      refine Or.inr ⟨hneg, ?_⟩
      have h2 : Real.exp x < Real.exp 0 := Real.exp_lt_exp.mpr hneg
      rw [Real.exp_zero] at h2
      linarith
    · apply div_pos hpos
      have h2 : Real.exp 0 < Real.exp x := Real.exp_lt_exp.mpr hpos
      rw [Real.exp_zero] at h2
      linarith

lemma alpha_n_pos (x : ℝ) : 0 < alpha_n x :=
  div_pos (mul_pos (by norm_num) (efun_pos _)) (by norm_num)

lemma beta_n_pos (x : ℝ) : 0 < beta_n x :=
  mul_pos (by norm_num) (Real.exp_pos _)

lemma alpha_m_pos (x : ℝ) : 0 < alpha_m x :=
  div_pos (mul_pos (by norm_num) (efun_pos _)) (by norm_num)

lemma beta_m_pos (x : ℝ) : 0 < beta_m x :=
  div_pos (mul_pos (by norm_num) (efun_pos _)) (by norm_num)

lemma alpha_h_pos (x : ℝ) : 0 < alpha_h x :=
  mul_pos (by norm_num) (Real.exp_pos _)

lemma beta_h_pos (x : ℝ) : 0 < beta_h x :=
  div_pos (by norm_num) (by positivity)

lemma inf_mem {a b : ℝ} (ha : 0 < a) (hb : 0 < b) :
    a / (a + b) ∈ Set.Icc (0 : ℝ) 1 := by
  constructor
  · exact (div_pos ha (by linarith)).le
  · rw [div_le_one (by linarith)]
    linarith

lemma n_inf_mem (x : ℝ) : n_inf x ∈ Set.Icc (0 : ℝ) 1 :=
  inf_mem (alpha_n_pos x) (beta_n_pos x)

lemma m_inf_mem (x : ℝ) : m_inf x ∈ Set.Icc (0 : ℝ) 1 :=
  inf_mem (alpha_m_pos x) (beta_m_pos x)

lemma h_inf_mem (x : ℝ) : h_inf x ∈ Set.Icc (0 : ℝ) 1 :=
  inf_mem (alpha_h_pos x) (beta_h_pos x)

lemma p_inf_mem (x : ℝ) : p_inf x ∈ Set.Icc (0 : ℝ) 1 := by
  unfold p_inf
  constructor
  · positivity
  · rw [div_le_one (by positivity)]
    have := Real.exp_pos ((-0.1) * (x + 35))
    linarith

lemma tau_n_pos (x : ℝ) : 0 < tau_n x :=
  div_pos one_pos (add_pos (alpha_n_pos x) (beta_n_pos x))

lemma tau_m_pos (x : ℝ) : 0 < tau_m x :=
  div_pos one_pos (add_pos (alpha_m_pos x) (beta_m_pos x))

lemma tau_h_pos (x : ℝ) : 0 < tau_h x :=
  div_pos one_pos (add_pos (alpha_h_pos x) (beta_h_pos x))

lemma tau_p_pos (tm x : ℝ) (h : 0 < tm) : 0 < tau_p tm x :=
  div_pos h (by positivity)

lemma expFactor_mem {dt τ : ℝ} (hdt : 0 ≤ dt) (hτ : 0 < τ) :
    0 ≤ Real.exp (-dt / τ) ∧ Real.exp (-dt / τ) ≤ 1 := by
  refine ⟨(Real.exp_pos _).le, ?_⟩
  have h0 : 0 ≤ dt / τ := div_nonneg hdt hτ.le
  have h1 : -dt / τ ≤ 0 := by
    rw [neg_div]
    linarith
  calc Real.exp (-dt / τ) ≤ Real.exp 0 := Real.exp_le_exp.mpr h1
    _ = 1 := Real.exp_zero

lemma combo_mem {a b e : ℝ} (ha : a ∈ Set.Icc (0 : ℝ) 1) (hb : b ∈ Set.Icc (0 : ℝ) 1)
    (he0 : 0 ≤ e) (he1 : e ≤ 1) : b + (a - b) * e ∈ Set.Icc (0 : ℝ) 1 := by
  obtain ⟨ha0, ha1⟩ := ha
  obtain ⟨hb0, hb1⟩ := hb
  constructor
  · nlinarith [mul_nonneg hb0 (sub_nonneg.mpr he1), mul_nonneg ha0 he0]
  · nlinarith [mul_nonneg (sub_nonneg.mpr hb1) (sub_nonneg.mpr he1),
      mul_nonneg (sub_nonneg.mpr ha1) he0]

lemma run_gating_mem (θ : Theta) (c : Constants) (ξ : ℕ → ℝ)
    (hτmax : 0 < θ.tau_max) (hdt : 0 ≤ c.time_step) (k : ℕ) :
    (run θ c ξ k).n ∈ Set.Icc (0 : ℝ) 1 ∧ (run θ c ξ k).m ∈ Set.Icc (0 : ℝ) 1 ∧
    (run θ c ξ k).h ∈ Set.Icc (0 : ℝ) 1 ∧ (run θ c ξ k).p ∈ Set.Icc (0 : ℝ) 1 := by
  induction k with
  | zero => exact ⟨n_inf_mem _, m_inf_mem _, h_inf_mem _, p_inf_mem _⟩
  | succ k ih =>
    obtain ⟨ihn, ihm, ihh, ihp⟩ := ih
    exact
      ⟨combo_mem ihn (n_inf_mem _) (expFactor_mem hdt (tau_n_pos _)).1
        (expFactor_mem hdt (tau_n_pos _)).2,
       combo_mem ihm (m_inf_mem _) (expFactor_mem hdt (tau_m_pos _)).1
        (expFactor_mem hdt (tau_m_pos _)).2,
       combo_mem ihh (h_inf_mem _) (expFactor_mem hdt (tau_h_pos _)).1
        (expFactor_mem hdt (tau_h_pos _)).2,
       combo_mem ihp (p_inf_mem _) (expFactor_mem hdt (tau_p_pos _ _ hτmax)).1
        (expFactor_mem hdt (tau_p_pos _ _ hτmax)).2⟩

lemma tau_V_pos_of_gating (θ : Theta) (s : HHState)
    (hNa : 0 < θ.g_Na) (hK : 0 < θ.g_K) (hM : 0 < θ.g_M) (hleak : 0 < θ.g_leak)
    (hn : 0 ≤ s.n) (hm : 0 ≤ s.m) (hh : 0 ≤ s.h) (hp : 0 ≤ s.p) :
    0 < tau_V θ s := by
  unfold tau_V C
  apply div_pos one_pos
  have t1 : 0 ≤ θ.g_Na * s.m ^ 3 * s.h :=
    mul_nonneg (mul_nonneg hNa.le (pow_nonneg hm 3)) hh
  have t2 : 0 ≤ θ.g_K * s.n ^ 4 := mul_nonneg hK.le (pow_nonneg hn 4)
  have t3 : 0 ≤ θ.g_M * s.p := mul_nonneg hM.le hp
  linarith

/-- **C8.** With strictly positive conductances and `tau_max > 0` (and
a forward time step), every state reached by the loop has all four
gating variables in `[0, 1]`, and the membrane time constant
`tau_V = C / (g_Na m^3 h + g_K n^4 + g_M p + g_leak)` computed from it
is strictly positive. -/
theorem gating_bounded_and_tau_V_pos (θ : Theta) (c : Constants) (ξ : ℕ → ℝ)
    (hNa : 0 < θ.g_Na) (hK : 0 < θ.g_K) (hM : 0 < θ.g_M) (hleak : 0 < θ.g_leak)
    (hτmax : 0 < θ.tau_max) (hdt : 0 ≤ c.time_step) (k : ℕ) :
    ((run θ c ξ k).n ∈ Set.Icc (0 : ℝ) 1 ∧ (run θ c ξ k).m ∈ Set.Icc (0 : ℝ) 1 ∧
     (run θ c ξ k).h ∈ Set.Icc (0 : ℝ) 1 ∧ (run θ c ξ k).p ∈ Set.Icc (0 : ℝ) 1) ∧
    0 < tau_V θ (run θ c ξ k) := by
  have hmem := run_gating_mem θ c ξ hτmax hdt k
  exact ⟨hmem, tau_V_pos_of_gating θ _ hNa hK hM hleak hmem.1.1 hmem.2.1.1
    hmem.2.2.1.1 hmem.2.2.2.1⟩

/-- Witness for C8 after one step at concrete parameters. -/
theorem gating_bounded_witness :
    0 ≤ (run theta0 defaultConstants (fun _ => 0) 1).n ∧
    (run theta0 defaultConstants (fun _ => 0) 1).n ≤ 1 ∧
    0 < tau_V theta0 (run theta0 defaultConstants (fun _ => 0) 1) := by
  have h := gating_bounded_and_tau_V_pos theta0 defaultConstants (fun _ => 0)
    (by norm_num [theta0]) (by norm_num [theta0]) (by norm_num [theta0])
    (by norm_num [theta0]) (by norm_num [theta0]) (by norm_num [defaultConstants]) 1
  exact ⟨h.1.1.1, h.1.1.2, h.2⟩

lemma maskSelect_map (P : ℝ → Prop) [DecidablePred P] :
    ∀ x ts : List ℝ, x.length = ts.length →
      maskSelect x (ts.map fun t => if P t then true else false) =
      (List.range x.length).filterMap fun (i : ℕ) =>
        if P (ts.getD i 0) then some (x.getD i 0) else none := by
  intro x
  induction x with
  | nil => intro ts h; rfl
  | cons a x ih =>
    intro ts h
    cases ts with
    | nil => simp at h
    | cons t ts =>
      simp only [List.length_cons, Nat.add_right_cancel_iff] at h
      have hcomp :
          ((fun (i : ℕ) =>
              if P ((t :: ts).getD i 0) then some ((a :: x).getD i 0) else none) ∘ Nat.succ)
            = fun (i : ℕ) => if P (ts.getD i 0) then some (x.getD i 0) else none := by
        funext i
        simp [Function.comp, List.getD_cons_succ]
      by_cases hP : P t
      · simp only [List.map_cons, if_pos hP, maskSelect, if_true,
          List.length_cons, List.range_succ_eq_map, List.filterMap_cons,
          List.getD_cons_zero, List.filterMap_map, hcomp]
        rw [ih ts h]
      · simp only [List.map_cons, if_neg hP, maskSelect, Bool.false_eq_true, if_false,
          List.length_cons, List.range_succ_eq_map, List.filterMap_cons,
          List.getD_cons_zero, List.filterMap_map, hcomp]
        rw [ih ts h]

lemma getD_tgrid (c : Constants) (i : ℕ) (hi : i < numSteps c) :
    (tgrid c).getD i 0 = (i : ℝ) * c.time_step := by
  unfold tgrid
  rw [List.getD_eq_getElem?_getD, List.getElem?_map, List.getElem?_range hi]
  rfl

lemma maskSelect_timeMask (x : List ℝ) (c : Constants) (lo hi : ℝ)
    (h : x.length = numSteps c) :
    maskSelect x (timeMask c lo hi) = specWindow x lo hi c.time_step := by
  unfold timeMask specWindow
  have hlen : x.length = (tgrid c).length := by
    simp [tgrid, h]
  rw [maskSelect_map (fun t => lo ≤ t ∧ t < hi) x (tgrid c) hlen]
  apply List.filterMap_congr
  intro i hmem
  have hi : i < numSteps c := by
    rw [← h]
    exact List.mem_range.mp hmem
  rw [getD_tgrid c i hi]

lemma numSteps_default : numSteps defaultConstants = 4000 := by
  have h : defaultConstants.duration / defaultConstants.time_step = ((4000 : ℕ) : ℝ) := by
    norm_num [defaultConstants]
  unfold numSteps
  rw [h, Nat.ceil_natCast]

lemma numSteps_cSmall : numSteps cSmall = 3 := by
  have h : cSmall.duration / cSmall.time_step = ((3 : ℕ) : ℝ) := by
    norm_num [cSmall]
  unfold numSteps
  rw [h, Nat.ceil_natCast]

lemma numSteps_cDeg : numSteps cDeg = 3 := by
  have h : cDeg.duration / cDeg.time_step = ((3 : ℕ) : ℝ) := by
    norm_num [cDeg]
  unfold numSteps
  rw [h, Nat.ceil_natCast]

/-- Counterexample to C3 as stated: with the default constants (grid
length 4000) a trace of length 1 does not produce a summary at all —
the boolean-mask indexing raises `IndexError` (modelled by `none`). -/
theorem summarize_mismatched_length_errors :
    summarize [(0 : ℝ)] defaultConstants = none := by
  unfold summarize
  rw [if_neg]
  simp [numSteps_default]

lemma summarize_eq_windows (x : List ℝ) (c : Constants) (h : x.length = numSteps c) :
    summarize x c = some
      [some ((spikeCount x : ℕ) : ℝ),
       npMean (specWindow x (c.padding / 2) c.padding c.time_step),
       npStd (specWindow x (c.padding / 2) c.padding c.time_step),
       npMean (specWindow x c.padding (c.duration - c.padding) c.time_step),
       npVar (specWindow x c.padding (c.duration - c.padding) c.time_step),
       spSkew (specWindow x c.padding (c.duration - c.padding) c.time_step),
       spKurtosis (specWindow x c.padding (c.duration - c.padding) c.time_step)] := by
  unfold summarize
  rw [if_pos h]
  rw [maskSelect_timeMask x c (c.padding / 2) c.padding h,
    maskSelect_timeMask x c c.padding (c.duration - c.padding) h]

/-- **C3 (amended).** For every trace whose time-axis length matches
the grid length `ceil(duration/dt)` of the constants, `summarize`
returns a vector of length exactly 7, whatever the window
configuration; a leading batch axis is preserved.  (For a mismatched
trace length the boolean-mask indexing raises instead.) -/
theorem summarize_output_shape (c : Constants) :
    (∀ x : List ℝ, x.length = numSteps c →
      ∃ ys : List (Option ℝ), summarize x c = some ys ∧ ys.length = 7) ∧
    (∀ xs : List (List ℝ), (summarizeBatch xs c).length = xs.length) := by
  constructor
  · intro x hx
    exact ⟨_, summarize_eq_windows x c hx, rfl⟩
  · intro xs
    simp [summarizeBatch]

/-- Witness for C3 (amended) on a 3-point grid. -/
theorem summarize_output_shape_witness :
    (∃ ys : List (Option ℝ), summarize [1, 2, 3] cSmall = some ys ∧ ys.length = 7) ∧
    (summarizeBatch [[1, 2, 3]] cSmall).length = 1 :=
  ⟨(summarize_output_shape cSmall).1 [1, 2, 3] (by simp [numSteps_cSmall]),
   (summarize_output_shape cSmall).2 [[1, 2, 3]]⟩

/-- **C6.** `summarize` windows on the grid of the integrator: for a trace
matching the grid, the resting statistics are the mean and standard
deviation over exactly the samples with `padding/2 <= i*dt < padding`,
the stimulus statistics are the mean, variance, skewness and kurtosis
over exactly the samples with `padding <= i*dt < duration - padding`,
and the seven outputs are concatenated in the fixed order
`[spike_count, rest_mean, rest_std, stim_mean, stim_var, stim_skew,
stim_kurtosis]`. -/
theorem summarize_window_selection (x : List ℝ) (c : Constants)
    (h : x.length = numSteps c) :
    summarize x c = some
      [some ((spikeCount x : ℕ) : ℝ),
       npMean (specWindow x (c.padding / 2) c.padding c.time_step),
       npStd (specWindow x (c.padding / 2) c.padding c.time_step),
       npMean (specWindow x c.padding (c.duration - c.padding) c.time_step),
       npVar (specWindow x c.padding (c.duration - c.padding) c.time_step),
       spSkew (specWindow x c.padding (c.duration - c.padding) c.time_step),
       spKurtosis (specWindow x c.padding (c.duration - c.padding) c.time_step)] :=
  summarize_eq_windows x c h

/-- Witness for C6 on a 3-point grid. -/
theorem summarize_window_selection_witness :
    summarize [1, 2, 3] cSmall = some
      [some ((spikeCount [1, 2, 3] : ℕ) : ℝ),
       npMean (specWindow [1, 2, 3] (cSmall.padding / 2) cSmall.padding cSmall.time_step),
       npStd (specWindow [1, 2, 3] (cSmall.padding / 2) cSmall.padding cSmall.time_step),
       npMean (specWindow [1, 2, 3] cSmall.padding (cSmall.duration - cSmall.padding)
        cSmall.time_step),
       npVar (specWindow [1, 2, 3] cSmall.padding (cSmall.duration - cSmall.padding)
        cSmall.time_step),
       spSkew (specWindow [1, 2, 3] cSmall.padding (cSmall.duration - cSmall.padding)
        cSmall.time_step),
       spKurtosis (specWindow [1, 2, 3] cSmall.padding (cSmall.duration - cSmall.padding)
        cSmall.time_step)] :=
  summarize_window_selection [1, 2, 3] cSmall (by simp [numSteps_cSmall])

/-- **C9.** For a grid-length trace, `summarize` never raises: it
returns a length-7 vector even when the windows are degenerate, and
when the resting (resp. stimulus) window selects zero samples its
moment entries are the NaN of an empty reduction (`none`). -/
theorem summarize_degenerate_windows (x : List ℝ) (c : Constants)
    (h : x.length = numSteps c) :
    ∃ ys : List (Option ℝ), summarize x c = some ys ∧ ys.length = 7 ∧
      (specWindow x (c.padding / 2) c.padding c.time_step = [] →
        ys.getD 1 (some 0) = none ∧ ys.getD 2 (some 0) = none) ∧
      (specWindow x c.padding (c.duration - c.padding) c.time_step = [] →
        ys.getD 3 (some 0) = none ∧ ys.getD 4 (some 0) = none ∧
        ys.getD 5 (some 0) = none ∧ ys.getD 6 (some 0) = none) := by
  refine ⟨_, summarize_eq_windows x c h, rfl, ?_, ?_⟩
  · intro hrest
    rw [hrest]
    simp [npMean, npStd, npVar]
  · intro hstim
    rw [hstim]
    simp [npMean, npVar, spSkew, spKurtosis]

/-- Witness for C9 at degenerate constants where both windows are
empty. -/
theorem summarize_degenerate_windows_witness :
    ∃ ys : List (Option ℝ), summarize [1, 2, 3] cDeg = some ys ∧ ys.length = 7 ∧
      (specWindow [1, 2, 3] (cDeg.padding / 2) cDeg.padding cDeg.time_step = [] →
        ys.getD 1 (some 0) = none ∧ ys.getD 2 (some 0) = none) ∧
      (specWindow [1, 2, 3] cDeg.padding (cDeg.duration - cDeg.padding) cDeg.time_step = [] →
        ys.getD 3 (some 0) = none ∧ ys.getD 4 (some 0) = none ∧
        ys.getD 5 (some 0) = none ∧ ys.getD 6 (some 0) = none) :=
  summarize_degenerate_windows [1, 2, 3] cDeg (by simp [numSteps_cDeg])

/-- **C5.** The first summary entry is the spike count: the number of
indices at which the second difference of the sign of the first
difference of the trace clipped from below at `-10` is strictly
negative; on the synthetic alternating trace `[0, 1, 0, 1, 0]` this
count is `2`, the hand-computed number of local maxima of the clipped
trace. -/
theorem spike_count_second_difference (x : List ℝ) (c : Constants)
    (ys : List (Option ℝ)) (hys : summarize x c = some ys) :
    ys.getD 0 none
      = some ((countNeg (npDiff ((npDiff (x.map fun v => max v (-10))).map Real.sign)) : ℕ) : ℝ) ∧
    spikeCount [0, 1, 0, 1, 0] = 2 ∧
    localMaxCount (([0, 1, 0, 1, 0] : List ℝ).map fun v => max v (-10)) = 2 := by
  refine ⟨?_, ?_, ?_⟩
  · unfold summarize at hys
    by_cases h : x.length = numSteps c
    · rw [if_pos h] at hys
      cases hys
      rfl
    · rw [if_neg h] at hys
      exact absurd hys (by simp)
  · norm_num [spikeCount, npDiff, countNeg, Real.sign, max_def]
  · norm_num [localMaxCount, max_def]

/-- Witness for C5 at a concrete trace and constants. -/
theorem spike_count_second_difference_witness :
    ([some ((spikeCount [1, 2, 3] : ℕ) : ℝ),
       npMean (specWindow [1, 2, 3] (cDeg.padding / 2) cDeg.padding cDeg.time_step),
       npStd (specWindow [1, 2, 3] (cDeg.padding / 2) cDeg.padding cDeg.time_step),
       npMean (specWindow [1, 2, 3] cDeg.padding (cDeg.duration - cDeg.padding)
        cDeg.time_step),
       npVar (specWindow [1, 2, 3] cDeg.padding (cDeg.duration - cDeg.padding)
        cDeg.time_step),
       spSkew (specWindow [1, 2, 3] cDeg.padding (cDeg.duration - cDeg.padding)
        cDeg.time_step),
       spKurtosis (specWindow [1, 2, 3] cDeg.padding (cDeg.duration - cDeg.padding)
        cDeg.time_step)] : List (Option ℝ)).getD 0 none
      = some ((countNeg (npDiff ((npDiff (([1, 2, 3] : List ℝ).map fun v => max v (-10))).map
          Real.sign)) : ℕ) : ℝ) ∧
    spikeCount [0, 1, 0, 1, 0] = 2 ∧
    localMaxCount (([0, 1, 0, 1, 0] : List ℝ).map fun v => max v (-10)) = 2 :=
  spike_count_second_difference [1, 2, 3] cDeg _
    (summarize_eq_windows [1, 2, 3] cDeg (by simp [numSteps_cDeg]))

end
